import Mathlib

/-!
Verification of the qoqo_qryd device-topology model and circuit-validation
engine against its natural-language specification.

Part 1 embeds the grid-edge helper functions of
`qoqo-qryd/examples/utils.py` (integer arithmetic, faithful to Python's
arbitrary-precision `int`).

Part 2 models the Layout / Device / Validation-Engine / Execution-Driver
core.  That core is Rust code (`roqoqo-qryd`) that is not part of the
source tree given here — only example scripts calling it are — so the
definitions of Part 2 are modelled from the specification text (sections
3, 4.1–4.4, 6–8) and each carries a doc comment saying so.  Coordinates
and durations, real numbers in the specification, are modelled over an
arbitrary linearly ordered commutative ring (ℝ is an instance); the
Euclidean-distance-versus-cutoff comparison is modelled by comparing
squared distance against squared cutoff, which is equivalent for a
non-negative cutoff.
-/

namespace QrydUtils

/-- Embeds `row_column_to_index` from `qoqo-qryd/examples/utils.py`:
index for a given row and column. -/
def row_column_to_index (row column columns : Int) : Int :=
  row * columns + column

/-- Embeds `apply_column_square` from `qoqo-qryd/examples/utils.py`:
indices for an interaction along the y-direction in a square lattice. -/
def apply_column_square (row column columns rows : Int) :
    Option (Int × Int) :=
  if row < rows - 1 then
    some (row_column_to_index row column columns,
          row_column_to_index (row + 1) column columns)
  else
    none

/-- Embeds `apply_column_triangular` from `qoqo-qryd/examples/utils.py`:
vertical edge plus a parity-dependent diagonal edge. -/
def apply_column_triangular (row column columns rows : Int) :
    Option (List (Int × Int)) :=
  if row < rows - 1 then
    let origin := row_column_to_index row column columns
    let vertical := (origin, row_column_to_index (row + 1) column columns)
    if row % 2 = 0 ∧ column < columns - 1 then
      some [vertical, (origin, row_column_to_index (row + 1) (column + 1) columns)]
    else if row % 2 = 1 ∧ column > 0 then
      some [vertical, (origin, row_column_to_index (row + 1) (column - 1) columns)]
    else
      some [vertical]
  else
    none

/-- Embeds `apply_row` from `qoqo-qryd/examples/utils.py`: indices for an
interaction along the x-direction; Python falls off the end of the
function (returning `None`) when `column >= columns - 1`. -/
def apply_row (row column columns _rows : Int) : Option (Int × Int) :=
  if column < columns - 1 then
    some (row_column_to_index row column columns,
          row_column_to_index row (column + 1) columns)
  else
    none

end QrydUtils

namespace QrydCore

/-- Association-list lookup; all finite maps of the model (layouts by
name, gate-time tables, site positions, the qubit-to-site mapping) are
association lists queried through this function. -/
def alookup {κ β : Type} [DecidableEq κ] : List (κ × β) → κ → Option β
  | [], _ => none
  | (k, v) :: rest, k0 => if k = k0 then some v else alookup rest k0

/-- Modelled from the spec: the `Layout` record of section 3 of the
specification (the implementing Rust crate is not part of the given
source tree).  Site positions are Coordinates (pairs of numbers in a
linearly ordered commutative ring, standing for the spec's reals); the
gate-time tables map (gate kind, site …) keys to durations; durations
and coordinates share the ring `α`. -/
structure Layout (α : Type) where
  site_positions : List (Nat × (α × α))
  single_qubit_gate_times : List ((String × Nat) × α)
  two_qubit_gate_times : List ((String × Nat × Nat) × α)
  multi_qubit_gate_times : List ((String × List Nat) × α)
  tweezers_per_row : List Nat
  allowed_shifts : List (List Nat)

/-- Modelled from the spec: the `Device` record of section 3 (layouts by
name, optional active layout, partial qubit-to-site mapping, cutoff). -/
structure Device (α : Type) where
  layouts : List (String × Layout α)
  active_layout : Option String
  qubit_to_site : List (Nat × Nat)
  cutoff : α

/-- Modelled from the spec: the error kinds of section 7.  `IllegalShift`
carries the offending move because section 4.2 requires the first
failing move to be reported. -/
inductive DevError where
  | DuplicateLayout
  | UnknownLayout
  | InvalidDuration
  | ConflictingEntry
  | UnknownSite
  | DuplicateBinding
  | SiteOccupied
  | IllegalShift (src dst : Nat)
  | InvalidDistance
  | UnresolvedQubit
  | UnsupportedOperation
deriving DecidableEq

/-- Modelled from the spec: the transient `PendingReconfiguration`
variants of section 3. -/
inductive PendingReconfiguration where
  | switchTo (target : String) (with_trivial_map : Bool)
  | shiftBy (moves : List (Nat × Nat))
  | remap (qubit site : Nat)
deriving DecidableEq

/-- Modelled from the spec: the closed tagged-variant operation records
of sections 6 and 9 (single-qubit, two-qubit, multi-qubit,
reconfiguration, definition/measurement). -/
inductive Operation where
  | singleQubit (gate : String) (q : Nat)
  | twoQubit (gate : String) (a b : Nat)
  | multiQubit (gate : String) (qs : List Nat)
  | reconfigure (r : PendingReconfiguration)
  | definitionOp (label : String)
  | measurementOp (label : String)
deriving DecidableEq

def emptyLayout (α : Type) : Layout α := ⟨[], [], [], [], [], []⟩

def getLayout {α : Type} (d : Device α) (name : String) : Option (Layout α) :=
  alookup d.layouts name

/-- Replace the layout stored under `name` (used by the table setters). -/
def setLayout {α : Type} (d : Device α) (name : String) (L : Layout α) :
    Device α :=
  { d with layouts := d.layouts.map (fun p => if p.1 = name then (name, L) else p) }

def activeLayoutOf {α : Type} (d : Device α) : Option (Layout α) :=
  match d.active_layout with
  | none => none
  | some n => getLayout d n

/-- Site currently bound to a logical qubit, if any. -/
def resolve {α : Type} (d : Device α) (q : Nat) : Option Nat :=
  alookup d.qubit_to_site q

/-- Whether some qubit currently occupies the given site. -/
def occupied {α : Type} (d : Device α) (s : Nat) : Bool :=
  d.qubit_to_site.any (fun p => p.2 == s)

/-- Squared Euclidean distance between two Coordinates; compared against
the squared cutoff, which for a non-negative cutoff is equivalent to the
spec's distance-versus-cutoff comparison. -/
def sqDist {α : Type} [LinearOrderedCommRing α] (p q : α × α) : α :=
  (p.1 - q.1) * (p.1 - q.1) + (p.2 - q.2) * (p.2 - q.2)

/-- Modelled from the spec: `add_layout` (§4.1). -/
def add_layout {α : Type} (d : Device α) (name : String) :
    Except DevError (Device α) :=
  match getLayout d name with
  | some _ => .error .DuplicateLayout
  | none => .ok { d with layouts := d.layouts ++ [(name, emptyLayout α)] }

/-- Modelled from the spec: `set_single_qubit_gate_time` (§4.1, §8).  A
non-positive duration always fails with `InvalidDuration` (§8 "a
duration ≤ 0 always fails"); an unknown layout fails with
`UnknownLayout`; redefining an existing entry with a different value
fails with `ConflictingEntry` (an equal value is a no-op per §3 "never
silently overwritten with conflicting values"). -/
def set_single_qubit_gate_time {α : Type} [LinearOrderedCommRing α]
    (d : Device α) (gate : String) (site : Nat) (duration : α)
    (layout_name : String) : Except DevError (Device α) :=
  if duration ≤ 0 then .error .InvalidDuration
  else
    match getLayout d layout_name with
    | none => .error .UnknownLayout
    | some L =>
      match alookup L.single_qubit_gate_times (gate, site) with
      | some t => if t = duration then .ok d else .error .ConflictingEntry
      | none => .ok (setLayout d layout_name
          { L with single_qubit_gate_times :=
              L.single_qubit_gate_times ++ [((gate, site), duration)] })

/-- Symmetric query of the two-qubit table (used by the setter to detect
conflicts under either orientation of the pair). -/
def twoQubitEntry {α : Type} (L : Layout α) (gate : String) (a b : Nat) :
    Option α :=
  match alookup L.two_qubit_gate_times (gate, a, b) with
  | some t => some t
  | none => alookup L.two_qubit_gate_times (gate, b, a)

/-- Modelled from the spec: `set_two_qubit_gate_time` (§4.1) — same
validations as the single-qubit setter, and the entry is stored
symmetrically (under both orientations of the site pair). -/
def set_two_qubit_gate_time {α : Type} [LinearOrderedCommRing α]
    (d : Device α) (gate : String) (site_a site_b : Nat) (duration : α)
    (layout_name : String) : Except DevError (Device α) :=
  if duration ≤ 0 then .error .InvalidDuration
  else
    match getLayout d layout_name with
    | none => .error .UnknownLayout
    | some L =>
      match twoQubitEntry L gate site_a site_b with
      | some t => if t = duration then .ok d else .error .ConflictingEntry
      | none => .ok (setLayout d layout_name
          { L with two_qubit_gate_times := L.two_qubit_gate_times ++
              [((gate, site_a, site_b), duration),
               ((gate, site_b, site_a), duration)] })

/-- Modelled from the spec: `set_tweezers_per_row` (§4.1). -/
def set_tweezers_per_row {α : Type} (d : Device α) (sizes : List Nat)
    (layout_name : String) : Except DevError (Device α) :=
  match getLayout d layout_name with
  | none => .error .UnknownLayout
  | some L => .ok (setLayout d layout_name { L with tweezers_per_row := sizes })

/-- Modelled from the spec: `set_allowed_shifts_from_rows` (§4.1). -/
def set_allowed_tweezer_shifts_from_rows {α : Type} (d : Device α)
    (rows : List (List Nat)) (layout_name : String) :
    Except DevError (Device α) :=
  match getLayout d layout_name with
  | none => .error .UnknownLayout
  | some L => .ok (setLayout d layout_name { L with allowed_shifts := rows })

/-- Modelled from the spec: `switch_layout` (§4.2).  With a trivial map
the qubit-to-site mapping becomes the identity on the new layout's
sites, discarding the previous mapping; without it every binding
becomes unresolved (an empty mapping) until remapped. -/
def switch_layout {α : Type} (d : Device α) (target : String)
    (with_trivial_map : Bool) : Except DevError (Device α) :=
  match getLayout d target with
  | none => .error .UnknownLayout
  | some L => .ok { d with
      active_layout := some target,
      qubit_to_site :=
        if with_trivial_map then L.site_positions.map (fun p => (p.1, p.1))
        else [] }

/-- Modelled from the spec: `add_qubit_tweezer_mapping` (§4.2). -/
def add_qubit_tweezer_mapping {α : Type} (d : Device α) (qubit site : Nat) :
    Except DevError (Device α) :=
  match activeLayoutOf d with
  | none => .error .UnknownLayout
  | some L =>
    if (alookup L.site_positions site).isNone then .error .UnknownSite
    else if (resolve d qubit).isSome then .error .DuplicateBinding
    else if occupied d site then .error .SiteOccupied
    else .ok { d with qubit_to_site := d.qubit_to_site ++ [(qubit, site)] }

/-- Modelled from the spec: `set_cutoff` (§4.2). -/
def set_cutoff {α : Type} [LinearOrderedCommRing α] (d : Device α)
    (distance : α) : Except DevError (Device α) :=
  if distance < 0 then .error .InvalidDistance
  else .ok { d with cutoff := distance }

/-- One step along an `allowed_shifts` chain (consecutive sites, either
direction). -/
def stepAdjacent (chain : List Nat) (src dst : Nat) : Bool :=
  (chain.zip chain.tail).any
    (fun p => (p.1 == src && p.2 == dst) || (p.1 == dst && p.2 == src))

/-- Legality of one shift move against the pre-move occupancy snapshot
(§4.2): the source is occupied, the destination is free, and the
destination is one `allowed_shifts` step away from the source. -/
def legalMove {α : Type} (L : Layout α) (d : Device α) (m : Nat × Nat) : Bool :=
  occupied d m.1 && !occupied d m.2 &&
    L.allowed_shifts.any (fun chain => stepAdjacent chain m.1 m.2)

/-- Final site of a binding after applying a list of moves in order. -/
def moveSite (moves : List (Nat × Nat)) (s : Nat) : Nat :=
  moves.foldl (fun cur m => if cur = m.1 then m.2 else cur) s

/-- Apply all moves of one `shift_qubits` call to the mapping. -/
def applyMoves (mapping : List (Nat × Nat)) (moves : List (Nat × Nat)) :
    List (Nat × Nat) :=
  mapping.map (fun p => (p.1, moveSite moves p.2))

/-- Modelled from the spec: `shift_qubits` (§4.2).  Every move is
validated against the pre-move occupancy snapshot; the call is atomic:
either all moves are applied or the first illegal move is reported and
no state change happens. -/
def shift_qubits {α : Type} (d : Device α) (moves : List (Nat × Nat)) :
    Except DevError (Device α) :=
  match activeLayoutOf d with
  | none => .error .UnknownLayout
  | some L =>
    match moves.find? (fun m => !legalMove L d m) with
    | some m => .error (.IllegalShift m.1 m.2)
    | none => .ok { d with qubit_to_site := applyMoves d.qubit_to_site moves }

/-- Modelled from the spec: dispatch of a reconfiguration instruction to
the Topology Mutators (§4.3 step 1). -/
def applyReconfig {α : Type} [LinearOrderedCommRing α] (d : Device α) :
    PendingReconfiguration → Except DevError (Device α)
  | .switchTo target m => switch_layout d target m
  | .shiftBy moves => shift_qubits d moves
  | .remap q s => add_qubit_tweezer_mapping d q s

/-- Resolve every qubit of a multi-qubit operation, failing if any is
unbound. -/
def resolveAll {α : Type} (d : Device α) : List Nat → Option (List Nat)
  | [] => some []
  | q :: qs =>
    match resolve d q with
    | none => none
    | some s => (resolveAll d qs).map (fun ss => s :: ss)

/-- Modelled from the spec: the Validation Engine of section 4.3.
Reconfiguration instructions are delegated by the driver and never
reach this decision (they validate to allow here); a single-qubit
operation resolves its qubit and requires a `single_qubit_gate_times`
entry; a two-qubit operation resolves both qubits, allows on an
explicit `two_qubit_gate_times` entry, otherwise allows exactly when
the squared distance between the two sites is at most the squared
cutoff; a multi-qubit operation requires an explicit capability entry
for the exact site tuple, with no distance fallback; definition and
measurement operations always allow. -/
def validateOp {α : Type} [LinearOrderedCommRing α] (d : Device α) :
    Operation → Except DevError Unit
  | .reconfigure _ => .ok ()
  | .definitionOp _ => .ok ()
  | .measurementOp _ => .ok ()
  | .singleQubit g q =>
    match resolve d q with
    | none => .error .UnresolvedQubit
    | some s =>
      match activeLayoutOf d with
      | none => .error .UnknownLayout
      | some L =>
        match alookup L.single_qubit_gate_times (g, s) with
        | none => .error .UnsupportedOperation
        | some _ => .ok ()
  | .twoQubit g a b =>
    match resolve d a with
    | none => .error .UnresolvedQubit
    | some sa =>
      match resolve d b with
      | none => .error .UnresolvedQubit
      | some sb =>
        match activeLayoutOf d with
        | none => .error .UnknownLayout
        | some L =>
          match alookup L.two_qubit_gate_times (g, sa, sb) with
          | some _ => .ok ()
          | none =>
            match alookup L.site_positions sa, alookup L.site_positions sb with
            | some pa, some pb =>
              if sqDist pa pb ≤ d.cutoff * d.cutoff then .ok ()
              else .error .UnsupportedOperation
            | _, _ => .error .UnknownSite
  | .multiQubit g qs =>
    match resolveAll d qs with
    | none => .error .UnresolvedQubit
    | some sites =>
      match activeLayoutOf d with
      | none => .error .UnknownLayout
      | some L =>
        match alookup L.multi_qubit_gate_times (g, sites) with
        | some _ => .ok ()
        | none => .error .UnsupportedOperation

/-- The ALLOW decision of the Validation Engine. -/
def Allows {α : Type} [LinearOrderedCommRing α] (d : Device α)
    (op : Operation) : Prop :=
  validateOp d op = .ok ()

/-- Modelled from the spec: outcome of the Execution Driver (§4.4 and
§6): either the final device with the operations forwarded to the
simulator, or the position of the first offending operation, its error
kind, and the device state at that point — no partial results. -/
inductive RunResult (α : Type) where
  | ok (final : Device α) (forwarded : List Operation)
  | fail (pos : Nat) (e : DevError) (dev : Device α)

/-- One driver step (§4.3 step 1 and §4.4): a reconfiguration
instruction is applied to the device and forwards nothing; every other
operation is validated against the current device and, on ALLOW,
forwarded unchanged. -/
def runStep {α : Type} [LinearOrderedCommRing α] (d : Device α)
    (op : Operation) : Except DevError (Device α × List Operation) :=
  match op with
  | .reconfigure r =>
    match applyReconfig d r with
    | .error e => .error e
    | .ok d2 => .ok (d2, [])
  | op2 =>
    match validateOp d op2 with
    | .error e => .error e
    | .ok _ => .ok (d, [op2])

/-- Modelled from the spec: the Execution Driver (§4.4): one in-order
single pass, aborting on the first rejected operation with its position
and error. -/
def run {α : Type} [LinearOrderedCommRing α] (d : Device α) :
    List Operation → RunResult α
  | [] => .ok d []
  | op :: rest =>
    match runStep d op with
    | .error e => .fail 0 e d
    | .ok (d2, fwd) =>
      match run d2 rest with
      | .ok dfin tr => .ok dfin (fwd ++ tr)
      | .fail k e dv => .fail (k + 1) e dv

/-- The §3 invariant that a two-qubit gate-time table is symmetric in
the two site indices. -/
def TwoQubitSymm {α : Type} (L : Layout α) : Prop :=
  ∀ g a b, alookup L.two_qubit_gate_times (g, a, b) =
    alookup L.two_qubit_gate_times (g, b, a)

/-- Symmetry invariant over every layout of a device. -/
def DeviceSymm {α : Type} (d : Device α) : Prop :=
  ∀ nm L, getLayout d nm = some L → TwoQubitSymm L

/-- The §3 invariant that every stored gate-time duration is strictly
positive, over every layout of a device. -/
def DurationsPos {α : Type} [LinearOrderedCommRing α] (d : Device α) : Prop :=
  ∀ nm L, getLayout d nm = some L →
    (∀ k t, (k, t) ∈ L.single_qubit_gate_times → 0 < t) ∧
    (∀ k t, (k, t) ∈ L.two_qubit_gate_times → 0 < t) ∧
    (∀ k t, (k, t) ∈ L.multi_qubit_gate_times → 0 < t)

/-- Executable check that a two-qubit gate-time table is symmetric: for
every entry, looking the key up with the two sites swapped agrees with
looking up the key itself (this covers absent keys as well, since a key
is only asymmetric when one orientation is present). -/
def symmCheckL {α : Type} [DecidableEq α] (L : Layout α) : Bool :=
  L.two_qubit_gate_times.all (fun e =>
    decide (alookup L.two_qubit_gate_times (e.1.1, e.1.2.2, e.1.2.1) =
      alookup L.two_qubit_gate_times e.1))

/-- Executable symmetry check over every layout of a device. -/
def deviceSymmCheck {α : Type} [DecidableEq α] (d : Device α) : Bool :=
  d.layouts.all (fun p => symmCheckL p.2)

/-- Executable check that every pairwise squared distance between the
given sites is within the squared cutoff. -/
def pairwiseWithinCutoff {α : Type} [LinearOrderedCommRing α] (L : Layout α)
    (c : α) (sites : List Nat) : Bool :=
  sites.all (fun s1 => sites.all (fun s2 =>
    match alookup L.site_positions s1, alookup L.site_positions s2 with
    | some p1, some p2 => decide (sqDist p1 p2 ≤ c * c)
    | _, _ => false))

/-- Executable check that every duration stored in a layout's gate-time
tables is strictly positive. -/
def durationsPosCheckL {α : Type} [LinearOrderedCommRing α] (L : Layout α) :
    Bool :=
  L.single_qubit_gate_times.all (fun e => decide (0 < e.2)) &&
    L.two_qubit_gate_times.all (fun e => decide (0 < e.2)) &&
    L.multi_qubit_gate_times.all (fun e => decide (0 < e.2))

/-- Executable positivity check over every layout of a device. -/
def durationsPosCheck {α : Type} [LinearOrderedCommRing α] (d : Device α) :
    Bool :=
  d.layouts.all (fun p => durationsPosCheckL p.2)

end QrydCore

namespace QrydWitness

open QrydCore

/-- Unit-spacing 2 × 2 square-lattice layout: sites 0–3 at coordinates
(0,0), (0,1), (1,0), (1,1); no gate-time entries. -/
def unitLayout : Layout ℤ :=
  { site_positions := [(0, (0, 0)), (1, (0, 1)), (2, (1, 0)), (3, (1, 1))]
    single_qubit_gate_times := []
    two_qubit_gate_times := []
    multi_qubit_gate_times := []
    tweezers_per_row := [2, 2]
    allowed_shifts := [] }

/-- Device on `unitLayout` with cutoff 1 and qubits mapped identically:
direct lattice neighbors are at squared distance 1, diagonal sites at
squared distance 2. -/
def unitDevice : Device ℤ :=
  { layouts := [("square_lattice", unitLayout)]
    active_layout := some "square_lattice"
    qubit_to_site := [(0, 0), (1, 1), (2, 2), (3, 3)]
    cutoff := 1 }

/-- Second layout (two sites in one row) for layout-switch scenarios. -/
def triLayout : Layout ℤ :=
  { site_positions := [(0, (0, 0)), (1, (0, 1))]
    single_qubit_gate_times := []
    two_qubit_gate_times := []
    multi_qubit_gate_times := []
    tweezers_per_row := [2]
    allowed_shifts := [] }

/-- Device owning two layouts with a non-trivial current mapping. -/
def twoLayoutDevice : Device ℤ :=
  { layouts := [("square_lattice", unitLayout), ("triangular_lattice", triLayout)]
    active_layout := some "square_lattice"
    qubit_to_site := [(0, 3)]
    cutoff := 1 }

/-- 2 × 4 grid layout (site 4·r + c at coordinates (r, c)) with the
shift chains of the `shift_qubits` example. -/
def gridLayout : Layout ℤ :=
  { site_positions := [(0, (0, 0)), (1, (0, 1)), (2, (0, 2)), (3, (0, 3)),
      (4, (1, 0)), (5, (1, 1)), (6, (1, 2)), (7, (1, 3))]
    single_qubit_gate_times := []
    two_qubit_gate_times := []
    multi_qubit_gate_times := []
    tweezers_per_row := [4, 4]
    allowed_shifts := [[0, 1, 2, 3], [4, 5, 6, 7]] }

/-- Device on `gridLayout`: qubit 1 at site 5, qubit 2 at site 7;
sites 5 and 7 are at squared distance 4 > cutoff² = 1, sites 6 and 7 at
squared distance 1. -/
def shiftDevice : Device ℤ :=
  { layouts := [("square_lattice", gridLayout)]
    active_layout := some "square_lattice"
    qubit_to_site := [(0, 0), (1, 5), (2, 7)]
    cutoff := 1 }

/-- `shiftDevice` after the move (5, 6): qubit 1 now at site 6. -/
def shiftDevice2 : Device ℤ :=
  { shiftDevice with qubit_to_site := [(0, 0), (1, 6), (2, 7)] }

/-- `unitLayout` with the symmetric pair of entries produced by one
`set_two_qubit_gate_time` call on sites 0 and 1. -/
def symLayout2 : Layout ℤ :=
  { unitLayout with two_qubit_gate_times :=
      [(("PhaseShiftedControlledPhase", 0, 1), 1),
       (("PhaseShiftedControlledPhase", 1, 0), 1)] }

/-- `unitDevice` after that `set_two_qubit_gate_time` call. -/
def symDevice2 : Device ℤ :=
  { unitDevice with layouts := [("square_lattice", symLayout2)] }

/-- `unitLayout` with one single-qubit entry (duration 1) and one
symmetrically stored two-qubit entry (duration 2), for the
conflicting-redefinition scenarios. -/
def entryLayout : Layout ℤ :=
  { unitLayout with
    single_qubit_gate_times := [(("RotateX", 0), 1)]
    two_qubit_gate_times :=
      [(("RotateX", 0, 1), 2), (("RotateX", 1, 0), 2)] }

/-- `unitDevice` carrying `entryLayout`. -/
def entryDevice : Device ℤ :=
  { unitDevice with layouts := [("square_lattice", entryLayout)] }

/-- `entryLayout` after a successful single-qubit set at the fresh site
1 with duration 3. -/
def entryLayout2 : Layout ℤ :=
  { entryLayout with
    single_qubit_gate_times := [(("RotateX", 0), 1), (("RotateX", 1), 3)] }

/-- `entryDevice` carrying `entryLayout2`. -/
def entryDevice2 : Device ℤ :=
  { entryDevice with layouts := [("square_lattice", entryLayout2)] }

/-- `entryLayout` after a successful two-qubit set on the fresh site
pair (0, 2) with duration 3, stored under both orientations. -/
def entryLayout3 : Layout ℤ :=
  { entryLayout with
    two_qubit_gate_times :=
      [(("RotateX", 0, 1), 2), (("RotateX", 1, 0), 2),
       (("RotateX", 0, 2), 3), (("RotateX", 2, 0), 3)] }

/-- `entryDevice` carrying `entryLayout3`. -/
def entryDevice3 : Device ℤ :=
  { entryDevice with layouts := [("square_lattice", entryLayout3)] }

/-- Three collinear sites at unit spacing, cutoff 2: every pairwise
squared distance (at most 4) is within the squared cutoff, and the
multi-qubit capability table is empty. -/
def multiLayout : Layout ℤ :=
  { site_positions := [(0, (0, 0)), (1, (0, 1)), (2, (0, 2))]
    single_qubit_gate_times := []
    two_qubit_gate_times := []
    multi_qubit_gate_times := []
    tweezers_per_row := [3]
    allowed_shifts := [] }

/-- Device on `multiLayout`, identity qubit mapping, cutoff 2. -/
def multiDevice : Device ℤ :=
  { layouts := [("square_lattice", multiLayout)]
    active_layout := some "square_lattice"
    qubit_to_site := [(0, 0), (1, 1), (2, 2)]
    cutoff := 2 }

end QrydWitness
open QrydUtils

/-- C9: for a grid with rows ≥ 1 and columns ≥ 1 and an in-range cell,
`apply_column_triangular` returns `none` exactly when `row = rows - 1`;
otherwise it returns the vertical edge followed by the parity-dependent
diagonal edge (to `(row+1, column+1)` for even rows not in the last
column, to `(row+1, column-1)` for odd rows not in the first column) and
nothing else. -/
theorem apply_column_triangular_edges (rows columns row column : Int)
    (hrows : 1 ≤ rows) (hcols : 1 ≤ columns)
    (hr0 : 0 ≤ row) (hr : row < rows)
    (hc0 : 0 ≤ column) (hc : column < columns) :
    (apply_column_triangular row column columns rows = none ↔ row = rows - 1) ∧
    (row ≠ rows - 1 →
      apply_column_triangular row column columns rows = some
        ((row * columns + column, (row + 1) * columns + column) ::
          (if row % 2 = 0 ∧ column < columns - 1 then
            [(row * columns + column, (row + 1) * columns + (column + 1))]
          else if row % 2 = 1 ∧ column > 0 then
            [(row * columns + column, (row + 1) * columns + (column - 1))]
          else []))) := by
  unfold apply_column_triangular row_column_to_index
  constructor
  · split_ifs <;> simp <;> omega
  · intro hne
    have hlt : row < rows - 1 := by omega
    simp only [if_pos hlt]
    split_ifs <;> simp

/-- Witness for C9 at the 2 × 4 grid of the examples, cell (0, 0). -/
theorem apply_column_triangular_edges_witness :
    (apply_column_triangular 0 0 4 2 = none ↔ (0 : Int) = 2 - 1) ∧
    ((0 : Int) ≠ 2 - 1 →
      apply_column_triangular 0 0 4 2 = some
        (((0 : Int) * 4 + 0, ((0 : Int) + 1) * 4 + 0) ::
          (if (0 : Int) % 2 = 0 ∧ (0 : Int) < 4 - 1 then
            [((0 : Int) * 4 + 0, ((0 : Int) + 1) * 4 + ((0 : Int) + 1))]
          else if (0 : Int) % 2 = 1 ∧ (0 : Int) > 0 then
            [((0 : Int) * 4 + 0, ((0 : Int) + 1) * 4 + ((0 : Int) - 1))]
          else []))) :=
  apply_column_triangular_edges 2 4 0 0 (by decide) (by decide) (by decide)
    (by decide) (by decide) (by decide)

/-- C10: `apply_row` returns `none` exactly when `column ≥ columns - 1`
and `apply_column_square` returns `none` exactly when `row ≥ rows - 1`;
for in-range cells every site index that either of them returns lies in
`[0, rows * columns)`, so generated edges reference only existing sites. -/
theorem apply_row_column_square_bounds (rows columns row column : Int)
    (hr0 : 0 ≤ row) (hr : row < rows)
    (hc0 : 0 ≤ column) (hc : column < columns) :
    (apply_row row column columns rows = none ↔ columns - 1 ≤ column) ∧
    (apply_column_square row column columns rows = none ↔ rows - 1 ≤ row) ∧
    (∀ a b, apply_row row column columns rows = some (a, b) →
      0 ≤ a ∧ a < rows * columns ∧ 0 ≤ b ∧ b < rows * columns) ∧
    (∀ a b, apply_column_square row column columns rows = some (a, b) →
      0 ≤ a ∧ a < rows * columns ∧ 0 ≤ b ∧ b < rows * columns) := by
  unfold apply_row apply_column_square row_column_to_index
  refine ⟨?_, ?_, ?_, ?_⟩
  · split_ifs <;> simp <;> omega
  · split_ifs <;> simp <;> omega
  · intro a b hab
    split_ifs at hab with hcol
    · simp only [Option.some.injEq, Prod.mk.injEq] at hab
      obtain ⟨ha, hb⟩ := hab
      subst ha; subst hb
      have h1 : (row + 1) * columns ≤ rows * columns := by
        apply mul_le_mul_of_nonneg_right <;> omega
      have h2 : 0 ≤ row * columns := mul_nonneg hr0 (by omega)
      refine ⟨?_, ?_, ?_, ?_⟩ <;> nlinarith
  · intro a b hab
    split_ifs at hab with hrow
    · simp only [Option.some.injEq, Prod.mk.injEq] at hab
      obtain ⟨ha, hb⟩ := hab
      subst ha; subst hb
      have h1 : (row + 2) * columns ≤ rows * columns := by
        apply mul_le_mul_of_nonneg_right <;> omega
      have h2 : 0 ≤ row * columns := mul_nonneg hr0 (by omega)
      have h3 : 0 ≤ (row + 1) * columns := mul_nonneg (by omega) (by omega)
      refine ⟨?_, ?_, ?_, ?_⟩ <;> nlinarith

/-- Witness for C10 at the 2 × 4 grid of the examples, cell (1, 2). -/
theorem apply_row_column_square_bounds_witness :
    (apply_row 1 2 4 2 = none ↔ (4 : Int) - 1 ≤ 2) ∧
    (apply_column_square 1 2 4 2 = none ↔ (2 : Int) - 1 ≤ 1) ∧
    (∀ a b, apply_row 1 2 4 2 = some (a, b) →
      0 ≤ a ∧ a < (2 : Int) * 4 ∧ 0 ≤ b ∧ b < (2 : Int) * 4) ∧
    (∀ a b, apply_column_square 1 2 4 2 = some (a, b) →
      0 ≤ a ∧ a < (2 : Int) * 4 ∧ 0 ≤ b ∧ b < (2 : Int) * 4) :=
  apply_row_column_square_bounds 2 4 1 2 (by decide) (by decide) (by decide)
    (by decide)


namespace QrydCore

theorem alookup_append {κ β : Type} [DecidableEq κ] (xs ys : List (κ × β))
    (k : κ) :
    alookup (xs ++ ys) k =
      match alookup xs k with
      | some v => some v
      | none => alookup ys k := by
  induction xs with
  | nil => simp [alookup]
  | cons p rest ih =>
    obtain ⟨k1, v1⟩ := p
    by_cases h : k1 = k <;> simp [alookup, h, ih]

theorem alookup_map_values {κ β γ : Type} [DecidableEq κ] (f : β → γ)
    (xs : List (κ × β)) (k : κ) :
    alookup (xs.map (fun p => (p.1, f p.2))) k = (alookup xs k).map f := by
  induction xs with
  | nil => simp [alookup]
  | cons p rest ih =>
    obtain ⟨k1, v1⟩ := p
    by_cases h : k1 = k <;> simp [alookup, h, ih]

theorem alookup_keys_self {κ β : Type} [DecidableEq κ] (xs : List (κ × β))
    (k : κ) :
    alookup (xs.map (fun p => (p.1, p.1))) k = (alookup xs k).map (fun _ => k) := by
  induction xs with
  | nil => simp [alookup]
  | cons p rest ih =>
    obtain ⟨k1, v1⟩ := p
    by_cases h : k1 = k <;> simp [alookup, h, ih]

theorem alookup_replace {β : Type} (xs : List (String × β)) (nm : String)
    (v : β) (k : String) :
    alookup (xs.map (fun p => if p.1 = nm then (nm, v) else p)) k =
      if k = nm then (alookup xs nm).map (fun _ => v) else alookup xs k := by
  induction xs with
  | nil => simp [alookup]
  | cons p rest ih =>
    obtain ⟨k1, v1⟩ := p
    rcases eq_or_ne k1 nm with h1 | h1
    · rw [List.map_cons, if_pos h1, h1]
      rcases eq_or_ne k nm with h3 | h3
      · rw [h3]
        simp [alookup]
      · simp [alookup, h3, Ne.symm h3, ih]
    · rw [List.map_cons, if_neg h1]
      rcases eq_or_ne k1 k with h2 | h2
      · have hk : k ≠ nm := by rw [← h2]; exact h1
        simp [alookup, h2, hk]
      · simp [alookup, h1, h2, ih]

theorem getLayout_setLayout {α : Type} (d : Device α) (nm : String)
    (L : Layout α) (k : String) :
    getLayout (setLayout d nm L) k =
      if k = nm then (getLayout d nm).map (fun _ => L) else getLayout d k := by
  simpa [getLayout, setLayout] using alookup_replace d.layouts nm L k

theorem find_first_matching {γ : Type} (p : γ → Bool) (pre : List γ) (m : γ)
    (post : List γ) (hpre : ∀ x ∈ pre, p x = false) (hm : p m = true) :
    (pre ++ m :: post).find? p = some m := by
  induction pre with
  | nil => simp [List.find?, hm]
  | cons a rest ih =>
    have ha : p a = false := hpre a (List.mem_cons_self a rest)
    simp only [List.cons_append, List.find?, ha]
    exact ih (fun x hx => hpre x (List.mem_cons_of_mem a hx))

theorem resolve_applyMoves {α : Type} (d : Device α)
    (moves : List (Nat × Nat)) (q : Nat) :
    alookup (applyMoves d.qubit_to_site moves) q =
      (resolve d q).map (moveSite moves) := by
  simpa [applyMoves, resolve] using
    alookup_map_values (moveSite moves) d.qubit_to_site q

end QrydCore

open QrydCore QrydWitness

/-- C1: for a two-qubit operation whose qubits resolve to sites of the
active layout, an explicit `two_qubit_gate_times` entry for the site
pair gives ALLOW; with no entry, the decision is ALLOW exactly when the
squared distance between the two sites' Coordinates is at most the
squared cutoff, and otherwise the operation fails with
`UnsupportedOperation`. -/
theorem two_qubit_validation_rule {α : Type} [LinearOrderedCommRing α]
    (d : Device α) (L : Layout α) (g : String) (a b sa sb : Nat) (pa pb : α × α)
    (hL : activeLayoutOf d = some L)
    (hra : resolve d a = some sa) (hrb : resolve d b = some sb)
    (hpa : alookup L.site_positions sa = some pa)
    (hpb : alookup L.site_positions sb = some pb) :
    (∀ t, alookup L.two_qubit_gate_times (g, sa, sb) = some t →
      validateOp d (.twoQubit g a b) = .ok ()) ∧
    (alookup L.two_qubit_gate_times (g, sa, sb) = none →
      (validateOp d (.twoQubit g a b) = .ok () ↔
        sqDist pa pb ≤ d.cutoff * d.cutoff) ∧
      (¬ sqDist pa pb ≤ d.cutoff * d.cutoff →
        validateOp d (.twoQubit g a b) = .error .UnsupportedOperation)) := by
  constructor
  · intro t ht
    simp [validateOp, hra, hrb, hL, ht]
  · intro hnone
    simp only [validateOp, hra, hrb, hL, hnone, hpa, hpb]
    split_ifs with h <;> simp [h]

/-- Witness for C1 on the unit-spacing square lattice with cutoff 1:
the gate between direct neighbors (squared distance 1) is allowed, the
gate between diagonal sites (squared distance 2) is rejected with
`UnsupportedOperation`. -/
theorem two_qubit_validation_rule_witness :
    validateOp unitDevice (.twoQubit "PhaseShiftedControlledPhase" 2 3) = .ok () ∧
    validateOp unitDevice (.twoQubit "PhaseShiftedControlledPhase" 0 3) =
      .error .UnsupportedOperation ∧
    ((∀ t, alookup unitLayout.two_qubit_gate_times
        ("PhaseShiftedControlledPhase", 0, 3) = some t →
        validateOp unitDevice (.twoQubit "PhaseShiftedControlledPhase" 0 3) = .ok ()) ∧
     (alookup unitLayout.two_qubit_gate_times
        ("PhaseShiftedControlledPhase", 0, 3) = none →
       (validateOp unitDevice (.twoQubit "PhaseShiftedControlledPhase" 0 3) = .ok () ↔
         sqDist ((0 : ℤ), (0 : ℤ)) ((1 : ℤ), (1 : ℤ)) ≤
           unitDevice.cutoff * unitDevice.cutoff) ∧
       (¬ sqDist ((0 : ℤ), (0 : ℤ)) ((1 : ℤ), (1 : ℤ)) ≤
           unitDevice.cutoff * unitDevice.cutoff →
         validateOp unitDevice (.twoQubit "PhaseShiftedControlledPhase" 0 3) =
           .error .UnsupportedOperation))) :=
  ⟨rfl, rfl, two_qubit_validation_rule unitDevice unitLayout
    "PhaseShiftedControlledPhase" 0 3 0 3 (0, 0) (1, 1) rfl rfl rfl rfl rfl⟩

/-- C2: switching to a registered layout with a trivial map resets the
qubit-to-site mapping to the identity on the new layout's sites,
discarding the previous mapping; switching without a trivial map leaves
every binding unresolved, so every site query returns nothing and every
gate validation on any qubit fails with `UnresolvedQubit` until an
explicit `add_qubit_tweezer_mapping`. -/
theorem switch_layout_mapping_rule {α : Type} [LinearOrderedCommRing α]
    (d : Device α) (n : String) (L : Layout α)
    (hn : getLayout d n = some L) :
    (∃ d2, switch_layout d n true = .ok d2 ∧
      d2.active_layout = some n ∧
      (∀ q, resolve d2 q = (alookup L.site_positions q).map (fun _ => q))) ∧
    (∃ d3, switch_layout d n false = .ok d3 ∧
      d3.active_layout = some n ∧
      (∀ q, resolve d3 q = none) ∧
      (∀ g q, validateOp d3 (.singleQubit g q) = .error .UnresolvedQubit) ∧
      (∀ g a b, validateOp d3 (.twoQubit g a b) = .error .UnresolvedQubit) ∧
      (∀ g q qs, validateOp d3 (.multiQubit g (q :: qs)) =
        .error .UnresolvedQubit)) := by
  constructor
  · refine ⟨{ d with
               active_layout := some n,
               qubit_to_site := L.site_positions.map (fun p => (p.1, p.1)) },
      ?_, rfl, ?_⟩
    · simp [switch_layout, hn]
    · intro q
      simpa [resolve] using alookup_keys_self L.site_positions q
  · refine ⟨{ d with active_layout := some n, qubit_to_site := [] },
      ?_, rfl, ?_, ?_, ?_, ?_⟩
    · simp [switch_layout, hn]
    · intro q
      simp [resolve, alookup]
    · intro g q
      simp [validateOp, resolve, alookup]
    · intro g a b
      simp [validateOp, resolve, alookup]
    · intro g q qs
      simp [validateOp, resolveAll, resolve, alookup]

/-- Witness for C2 on a device owning a square and a triangular layout
with a non-trivial current mapping. -/
theorem switch_layout_mapping_rule_witness :
    (∃ d2, switch_layout twoLayoutDevice "triangular_lattice" true = .ok d2 ∧
      d2.active_layout = some "triangular_lattice" ∧
      (∀ q, resolve d2 q =
        (alookup triLayout.site_positions q).map (fun _ => q))) ∧
    (∃ d3, switch_layout twoLayoutDevice "triangular_lattice" false = .ok d3 ∧
      d3.active_layout = some "triangular_lattice" ∧
      (∀ q, resolve d3 q = none) ∧
      (∀ g q, validateOp d3 (.singleQubit g q) = .error .UnresolvedQubit) ∧
      (∀ g a b, validateOp d3 (.twoQubit g a b) = .error .UnresolvedQubit) ∧
      (∀ g q qs, validateOp d3 (.multiQubit g (q :: qs)) =
        .error .UnresolvedQubit)) :=
  switch_layout_mapping_rule twoLayoutDevice "triangular_lattice" triLayout rfl

/-- C3: `shift_qubits` validates every move of one call against the
pre-move occupancy snapshot and is atomic: if every move is legal the
call succeeds and the new occupancy reflects all moves; otherwise the
first illegal move is reported and a failed run leaves the device — in
particular its occupancy — exactly as it was before the call. -/
theorem shift_qubits_atomic_rule {α : Type} [LinearOrderedCommRing α]
    (d : Device α) (L : Layout α) (moves : List (Nat × Nat))
    (hL : activeLayoutOf d = some L) :
    ((∀ m ∈ moves, legalMove L d m = true) →
      shift_qubits d moves =
        .ok { d with qubit_to_site := applyMoves d.qubit_to_site moves } ∧
      (∀ q, resolve { d with qubit_to_site := applyMoves d.qubit_to_site moves } q =
        (resolve d q).map (moveSite moves))) ∧
    (∀ pre m post, moves = pre ++ m :: post →
      (∀ m2 ∈ pre, legalMove L d m2 = true) → legalMove L d m = false →
      shift_qubits d moves = .error (.IllegalShift m.1 m.2)) ∧
    (∀ k e dv, run d [.reconfigure (.shiftBy moves)] = .fail k e dv →
      dv = d ∧ dv.qubit_to_site = d.qubit_to_site) := by
  refine ⟨?_, ?_, ?_⟩
  · intro hall
    have hfind : moves.find? (fun m => !legalMove L d m) = none := by
      rw [List.find?_eq_none]
      intro x hx
      simp [hall x hx]
    constructor
    · simp [shift_qubits, hL, hfind]
    · intro q
      simpa [resolve] using resolve_applyMoves d moves q
  · intro pre m post hmoves hpre hm
    have hfind : moves.find? (fun m2 => !legalMove L d m2) = some m := by
      rw [hmoves]
      exact find_first_matching _ pre m post (fun x hx => by simp [hpre x hx])
        (by simp [hm])
    simp [shift_qubits, hL, hfind]
  · intro k e dv hrun
    cases hs : shift_qubits d moves with
    | error e2 =>
      simp only [run, runStep, applyReconfig, hs] at hrun
      cases hrun
      exact ⟨rfl, rfl⟩
    | ok d2 =>
      simp only [run, runStep, applyReconfig, hs] at hrun
      cases hrun

/-- Witness for C3: on the 2 × 4 grid device, the call with moves
[(5, 6) legal, (99, 100) illegal] fails reporting the illegal move, and
the failed run leaves the device unchanged. -/
theorem shift_qubits_atomic_rule_witness :
    shift_qubits shiftDevice [(5, 6), (99, 100)] =
      .error (.IllegalShift 99 100) ∧
    run shiftDevice [.reconfigure (.shiftBy [(5, 6), (99, 100)])] =
      .fail 0 (.IllegalShift 99 100) shiftDevice ∧
    (((∀ m ∈ [(5, 6), (99, 100)], legalMove gridLayout shiftDevice m = true) →
      shift_qubits shiftDevice [(5, 6), (99, 100)] =
        .ok { shiftDevice with qubit_to_site := [(0, 0), (1, 6), (2, 7)] } ∧
      (∀ q, resolve { shiftDevice with qubit_to_site := [(0, 0), (1, 6), (2, 7)] } q =
        (resolve shiftDevice q).map (moveSite [(5, 6), (99, 100)]))) ∧
    (∀ pre m post, [(5, 6), (99, 100)] = pre ++ m :: post →
      (∀ m2 ∈ pre, legalMove gridLayout shiftDevice m2 = true) →
      legalMove gridLayout shiftDevice m = false →
      shift_qubits shiftDevice [(5, 6), (99, 100)] =
        .error (.IllegalShift m.1 m.2)) ∧
    (∀ k e dv, run shiftDevice [.reconfigure (.shiftBy [(5, 6), (99, 100)])] =
        .fail k e dv →
      dv = shiftDevice ∧ dv.qubit_to_site = shiftDevice.qubit_to_site)) :=
  ⟨rfl, rfl,
    shift_qubits_atomic_rule shiftDevice gridLayout [(5, 6), (99, 100)] rfl⟩

/-- C4: validation reads the device state as mutated by earlier
reconfiguration operations.  After a successful `shift_qubits [(5, 6)]`
the qubit that was bound to site 5 is bound to site 6, and a two-qubit
operation with a qubit whose site has an explicit gate-time entry with
site 6 or is within the cutoff of site 6 is allowed, although the same
operation was rejected with `UnsupportedOperation` before the shift;
the driver run exhibits exactly this before/after behavior. -/
theorem shift_then_validate_rule {α : Type} [LinearOrderedCommRing α]
    (d d2 : Device α) (L : Layout α) (g : String) (q1 q2 s2 : Nat)
    (p5 p6 p2 : α × α)
    (hL : activeLayoutOf d = some L)
    (hq1 : resolve d q1 = some 5)
    (hq2 : resolve d q2 = some s2) (hs2 : s2 ≠ 5)
    (hshift : shift_qubits d [(5, 6)] = .ok d2)
    (hp5 : alookup L.site_positions 5 = some p5)
    (hp6 : alookup L.site_positions 6 = some p6)
    (hp2 : alookup L.site_positions s2 = some p2)
    (hno5 : alookup L.two_qubit_gate_times (g, 5, s2) = none)
    (hfar : ¬ sqDist p5 p2 ≤ d.cutoff * d.cutoff)
    (hallow : alookup L.two_qubit_gate_times (g, 6, s2) ≠ none ∨
      sqDist p6 p2 ≤ d.cutoff * d.cutoff) :
    resolve d2 q1 = some 6 ∧
    validateOp d (.twoQubit g q1 q2) = .error .UnsupportedOperation ∧
    validateOp d2 (.twoQubit g q1 q2) = .ok () ∧
    run d [.twoQubit g q1 q2] = .fail 0 .UnsupportedOperation d ∧
    run d [.reconfigure (.shiftBy [(5, 6)]), .twoQubit g q1 q2] =
      .ok d2 [.twoQubit g q1 q2] := by
  have hd2 : d2 = { d with qubit_to_site := applyMoves d.qubit_to_site [(5, 6)] } := by
    cases hfind : List.find? (fun m => !legalMove L d m) [(5, 6)] with
    | none =>
      simp only [shift_qubits, hL, hfind] at hshift
      exact (Except.ok.inj hshift).symm
    | some m =>
      simp [shift_qubits, hL, hfind] at hshift
  have hr1 : resolve d2 q1 = some 6 := by
    rw [hd2]
    show alookup (applyMoves d.qubit_to_site [(5, 6)]) q1 = some 6
    rw [resolve_applyMoves, hq1]
    simp [moveSite]
  have hr2 : resolve d2 q2 = some s2 := by
    rw [hd2]
    show alookup (applyMoves d.qubit_to_site [(5, 6)]) q2 = some s2
    rw [resolve_applyMoves, hq2]
    simp [moveSite, hs2]
  have hL2 : activeLayoutOf d2 = some L := by
    rw [hd2]
    exact hL
  have hbad : validateOp d (.twoQubit g q1 q2) = .error .UnsupportedOperation := by
    simp [validateOp, hq1, hq2, hL, hno5, hp5, hp2, hfar]
  have hcut : d2.cutoff = d.cutoff := by rw [hd2]
  have hgood : validateOp d2 (.twoQubit g q1 q2) = .ok () := by
    simp only [validateOp, hr1, hr2, hL2, hcut]
    cases hlk : alookup L.two_qubit_gate_times (g, 6, s2) with
    | some t => simp
    | none =>
      rcases hallow with hsome | hnear
      · exact absurd hlk hsome
      · simp [hp6, hp2, hnear]
  refine ⟨hr1, hbad, hgood, ?_, ?_⟩
  · simp [run, runStep, hbad]
  · simp [run, runStep, applyReconfig, hshift, hgood]

/-- Witness for C4 on the 2 × 4 grid device with cutoff 1: qubit 1 sits
at site 5, qubit 2 at site 7; their gate is rejected (squared distance
4 > 1), and after shifting 5 → 6 the same gate is allowed (squared
distance 1). -/
theorem shift_then_validate_rule_witness :
    resolve shiftDevice2 1 = some 6 ∧
    validateOp shiftDevice (.twoQubit "PhaseShiftedControlledZ" 1 2) =
      .error .UnsupportedOperation ∧
    validateOp shiftDevice2 (.twoQubit "PhaseShiftedControlledZ" 1 2) = .ok () ∧
    run shiftDevice [.twoQubit "PhaseShiftedControlledZ" 1 2] =
      .fail 0 .UnsupportedOperation shiftDevice ∧
    run shiftDevice [.reconfigure (.shiftBy [(5, 6)]),
        .twoQubit "PhaseShiftedControlledZ" 1 2] =
      .ok shiftDevice2 [.twoQubit "PhaseShiftedControlledZ" 1 2] :=
  shift_then_validate_rule shiftDevice shiftDevice2 gridLayout
    "PhaseShiftedControlledZ" 1 2 7 (1, 1) (1, 2) (1, 3) rfl rfl rfl
    (by decide) rfl rfl rfl rfl rfl (by decide) (Or.inr (by decide))

theorem sqDist_comm {α : Type} [LinearOrderedCommRing α] (p q : α × α) :
    sqDist p q = sqDist q p := by
  unfold sqDist
  ring

theorem alookup_some_mem {κ β : Type} [DecidableEq κ] {xs : List (κ × β)}
    {k : κ} {v : β} (h : alookup xs k = some v) : (k, v) ∈ xs := by
  induction xs with
  | nil => simp [alookup] at h
  | cons p rest ih =>
    obtain ⟨k1, v1⟩ := p
    by_cases h1 : k1 = k
    · simp only [alookup, if_pos h1, Option.some.injEq] at h
      subst h1
      subst h
      exact List.mem_cons_self _ _
    · simp only [alookup, if_neg h1] at h
      exact List.mem_cons_of_mem _ (ih h)

theorem symmCheckL_correct {α : Type} [DecidableEq α] {L : Layout α}
    (h : symmCheckL L = true) : TwoQubitSymm L := by
  intro g a b
  cases hab : alookup L.two_qubit_gate_times (g, a, b) with
  | some v =>
    have hsw := of_decide_eq_true
      ((List.all_eq_true.mp h) _ (alookup_some_mem hab))
    dsimp only at hsw
    rw [hab] at hsw
    exact hsw.symm
  | none =>
    cases hba : alookup L.two_qubit_gate_times (g, b, a) with
    | none => rfl
    | some v =>
      have hsw := of_decide_eq_true
        ((List.all_eq_true.mp h) _ (alookup_some_mem hba))
      dsimp only at hsw
      rw [hab, hba] at hsw
      exact hsw

theorem deviceSymmCheck_correct {α : Type} [DecidableEq α] {d : Device α}
    (h : deviceSymmCheck d = true) : DeviceSymm d := by
  intro nm L hgl
  have hmem := alookup_some_mem hgl
  exact symmCheckL_correct ((List.all_eq_true.mp h) _ hmem)

theorem durationsPosCheckL_correct {α : Type} [LinearOrderedCommRing α]
    {L : Layout α} (h : durationsPosCheckL L = true) :
    (∀ k t, (k, t) ∈ L.single_qubit_gate_times → 0 < t) ∧
    (∀ k t, (k, t) ∈ L.two_qubit_gate_times → 0 < t) ∧
    (∀ k t, (k, t) ∈ L.multi_qubit_gate_times → 0 < t) := by
  simp only [durationsPosCheckL, Bool.and_eq_true] at h
  obtain ⟨⟨h1, h2⟩, h3⟩ := h
  refine ⟨?_, ?_, ?_⟩ <;> intro k t hm
  · exact of_decide_eq_true ((List.all_eq_true.mp h1) _ hm)
  · exact of_decide_eq_true ((List.all_eq_true.mp h2) _ hm)
  · exact of_decide_eq_true ((List.all_eq_true.mp h3) _ hm)

theorem durationsPosCheck_correct {α : Type} [LinearOrderedCommRing α]
    {d : Device α} (h : durationsPosCheck d = true) : DurationsPos d := by
  intro nm L hgl
  exact durationsPosCheckL_correct
    ((List.all_eq_true.mp h) _ (alookup_some_mem hgl))

theorem pair_entries_symm {α : Type} (g g2 : String) (a b x y : Nat) (dur : α) :
    alookup [((g, a, b), dur), ((g, b, a), dur)] (g2, x, y) =
      alookup [((g, a, b), dur), ((g, b, a), dur)] (g2, y, x) := by
  have hchar : ∀ k : String × Nat × Nat,
      alookup [((g, a, b), dur), ((g, b, a), dur)] k =
        if (g, a, b) = k ∨ (g, b, a) = k then some dur else none := by
    intro k
    simp only [alookup]
    by_cases h1 : (g, a, b) = k
    · simp [h1]
    · by_cases h2 : (g, b, a) = k <;> simp [h1, h2]
  have hiff : ((g, a, b) = (g2, x, y) ∨ (g, b, a) = (g2, x, y)) ↔
      ((g, a, b) = (g2, y, x) ∨ (g, b, a) = (g2, y, x)) := by
    simp only [Prod.mk.injEq]
    tauto
  rw [hchar, hchar, if_congr hiff rfl rfl]

/-- C5: the two-qubit setter stores entries symmetrically, so the
symmetry invariant of the two-qubit tables (lookups for (gate, a, b)
and (gate, b, a) agree) is preserved by `set_two_qubit_gate_time`, and
on any device satisfying that invariant two-qubit validation allows
(a, b) exactly when it allows (b, a). -/
theorem two_qubit_symmetry_rule {α : Type} [LinearOrderedCommRing α]
    (d d2 : Device α) (g : String) (a b : Nat) (dur : α) (nm : String)
    (hsym : DeviceSymm d) :
    (set_two_qubit_gate_time d g a b dur nm = .ok d2 → DeviceSymm d2) ∧
    (∀ q1 q2, (Allows d (.twoQubit g q1 q2) ↔ Allows d (.twoQubit g q2 q1))) := by
  constructor
  · intro hset
    by_cases hdur : dur ≤ 0
    · simp [set_two_qubit_gate_time, hdur] at hset
    · cases hgl : getLayout d nm with
      | none => simp [set_two_qubit_gate_time, hdur, hgl] at hset
      | some L =>
        cases hent : twoQubitEntry L g a b with
        | some t =>
          by_cases ht : t = dur
          · simp only [set_two_qubit_gate_time, if_neg hdur, hgl, hent,
              if_pos ht] at hset
            rw [← Except.ok.inj hset]
            exact hsym
          · simp [set_two_qubit_gate_time, hdur, hgl, hent, ht] at hset
        | none =>
          simp only [set_two_qubit_gate_time, if_neg hdur, hgl, hent] at hset
          rw [← Except.ok.inj hset]
          intro nm2 L2 hgl2
          rw [getLayout_setLayout] at hgl2
          by_cases hnm : nm2 = nm
          · rw [if_pos hnm, hgl] at hgl2
            rw [← Option.some.inj hgl2]
            intro g2 x y
            show alookup (L.two_qubit_gate_times ++
              [((g, a, b), dur), ((g, b, a), dur)]) (g2, x, y) = _
            rw [alookup_append, alookup_append]
            have hLs := hsym nm L hgl g2 x y
            cases hc : alookup L.two_qubit_gate_times (g2, x, y) with
            | some v =>
              rw [hc] at hLs
              rw [← hLs]
            | none =>
              rw [hc] at hLs
              rw [← hLs]
              exact pair_entries_symm g g2 a b x y dur
          · rw [if_neg hnm] at hgl2
            exact hsym nm2 L2 hgl2
  · intro q1 q2
    unfold Allows
    cases h1 : resolve d q1 with
    | none =>
      cases h2 : resolve d q2 with
      | none => simp [validateOp, h1, h2]
      | some s2 => simp [validateOp, h1, h2]
    | some s1 =>
      cases h2 : resolve d q2 with
      | none => simp [validateOp, h1, h2]
      | some s2 =>
        cases hLa : activeLayoutOf d with
        | none => simp [validateOp, h1, h2, hLa]
        | some L =>
          have hts : TwoQubitSymm L := by
            unfold activeLayoutOf at hLa
            cases han : d.active_layout with
            | none => rw [han] at hLa; cases hLa
            | some n => rw [han] at hLa; exact hsym n L hLa
          simp only [validateOp, h1, h2, hLa]
          rw [hts g s2 s1]
          cases hlk : alookup L.two_qubit_gate_times (g, s1, s2) with
          | some t => simp
          | none =>
            cases hpa : alookup L.site_positions s1 with
            | none =>
              cases hpb : alookup L.site_positions s2 with
              | none => simp
              | some p2 => simp
            | some p1 =>
              cases hpb : alookup L.site_positions s2 with
              | none => simp
              | some p2 =>
                dsimp only
                rw [sqDist_comm p2 p1]

/-- Witness for C5: one `set_two_qubit_gate_time` call on the empty
square-lattice table yields a device whose table is symmetric, and
two-qubit validation on the unit device is symmetric in the qubit
pair. -/
theorem two_qubit_symmetry_rule_witness :
    DeviceSymm symDevice2 ∧
    (∀ q1 q2, (Allows unitDevice
        (.twoQubit "PhaseShiftedControlledPhase" q1 q2) ↔
      Allows unitDevice (.twoQubit "PhaseShiftedControlledPhase" q2 q1))) :=
  ⟨(two_qubit_symmetry_rule unitDevice symDevice2 "PhaseShiftedControlledPhase"
      0 1 1 "square_lattice" (deviceSymmCheck_correct rfl)).1 rfl,
   (two_qubit_symmetry_rule unitDevice symDevice2 "PhaseShiftedControlledPhase"
      0 1 1 "square_lattice" (deviceSymmCheck_correct rfl)).2⟩

/-- C6: a multi-qubit operation on more than two qubits is allowed only
through an explicit capability entry for the exact tuple of resolved
sites; with no entry it fails with `UnsupportedOperation` even when
every pairwise squared distance between the sites is within the squared
cutoff — there is no distance-based fallback. -/
theorem multi_qubit_explicit_only {α : Type} [LinearOrderedCommRing α]
    (d : Device α) (L : Layout α) (g : String) (qs sites : List Nat)
    (hL : activeLayoutOf d = some L)
    (hres : resolveAll d qs = some sites)
    (hlen : 2 < qs.length)
    (hclose : pairwiseWithinCutoff L d.cutoff sites = true) :
    (alookup L.multi_qubit_gate_times (g, sites) = none →
      validateOp d (.multiQubit g qs) = .error .UnsupportedOperation) ∧
    (∀ t, alookup L.multi_qubit_gate_times (g, sites) = some t →
      validateOp d (.multiQubit g qs) = .ok ()) := by
  constructor
  · intro hnone
    simp [validateOp, hres, hL, hnone]
  · intro t ht
    simp [validateOp, hres, hL, ht]

/-- Witness for C6: three collinear qubits with all pairwise squared
distances within the squared cutoff are rejected, the capability table
being empty. -/
theorem multi_qubit_explicit_only_witness :
    validateOp multiDevice (.multiQubit "MultiQubitZZ" [0, 1, 2]) =
      .error .UnsupportedOperation ∧
    ((alookup multiLayout.multi_qubit_gate_times ("MultiQubitZZ", [0, 1, 2]) =
        none →
      validateOp multiDevice (.multiQubit "MultiQubitZZ" [0, 1, 2]) =
        .error .UnsupportedOperation) ∧
     (∀ t, alookup multiLayout.multi_qubit_gate_times
        ("MultiQubitZZ", [0, 1, 2]) = some t →
      validateOp multiDevice (.multiQubit "MultiQubitZZ" [0, 1, 2]) =
        .ok ())) :=
  ⟨rfl, multi_qubit_explicit_only multiDevice multiLayout "MultiQubitZZ"
    [0, 1, 2] [0, 1, 2] rfl rfl (by decide) rfl⟩

/-- C7: a gate-time setter called with a non-positive duration always
fails with `InvalidDuration`; with a positive duration it fails with
`UnknownLayout` on an unregistered layout name and with
`ConflictingEntry` when redefining an existing entry with a different
duration; and both setters preserve the invariant that every stored
duration is strictly positive. -/
theorem gate_time_setter_guards {α : Type} [LinearOrderedCommRing α]
    (d : Device α) (g : String) (s a b : Nat) (dur : α) (nm : String) :
    (dur ≤ 0 →
      set_single_qubit_gate_time d g s dur nm = .error .InvalidDuration ∧
      set_two_qubit_gate_time d g a b dur nm = .error .InvalidDuration) ∧
    (0 < dur → getLayout d nm = none →
      set_single_qubit_gate_time d g s dur nm = .error .UnknownLayout ∧
      set_two_qubit_gate_time d g a b dur nm = .error .UnknownLayout) ∧
    (∀ L t, 0 < dur → getLayout d nm = some L →
      alookup L.single_qubit_gate_times (g, s) = some t → t ≠ dur →
      set_single_qubit_gate_time d g s dur nm = .error .ConflictingEntry) ∧
    (∀ L t, 0 < dur → getLayout d nm = some L →
      twoQubitEntry L g a b = some t → t ≠ dur →
      set_two_qubit_gate_time d g a b dur nm = .error .ConflictingEntry) ∧
    (DurationsPos d → ∀ d2,
      set_single_qubit_gate_time d g s dur nm = .ok d2 → DurationsPos d2) ∧
    (DurationsPos d → ∀ d2,
      set_two_qubit_gate_time d g a b dur nm = .ok d2 → DurationsPos d2) := by
  refine ⟨?_, ?_, ?_, ?_, ?_, ?_⟩
  · intro hdur
    constructor <;> simp [set_single_qubit_gate_time,
      set_two_qubit_gate_time, hdur]
  · intro hdur hnone
    have hd : ¬ dur ≤ 0 := not_le.mpr hdur
    constructor <;> simp [set_single_qubit_gate_time,
      set_two_qubit_gate_time, hd, hnone]
  · intro L t hdur hgl hlk ht
    have hd : ¬ dur ≤ 0 := not_le.mpr hdur
    simp [set_single_qubit_gate_time, hd, hgl, hlk, ht]
  · intro L t hdur hgl hlk ht
    have hd : ¬ dur ≤ 0 := not_le.mpr hdur
    simp [set_two_qubit_gate_time, hd, hgl, hlk, ht]
  · intro hpos d2 hok
    by_cases hdur : dur ≤ 0
    · simp [set_single_qubit_gate_time, hdur] at hok
    · cases hgl : getLayout d nm with
      | none => simp [set_single_qubit_gate_time, hdur, hgl] at hok
      | some L =>
        cases hlk : alookup L.single_qubit_gate_times (g, s) with
        | some t =>
          by_cases ht : t = dur
          · simp only [set_single_qubit_gate_time, if_neg hdur, hgl, hlk,
              if_pos ht] at hok
            rw [← Except.ok.inj hok]
            exact hpos
          · simp [set_single_qubit_gate_time, hdur, hgl, hlk, ht] at hok
        | none =>
          simp only [set_single_qubit_gate_time, if_neg hdur, hgl, hlk] at hok
          rw [← Except.ok.inj hok]
          intro nm2 L2 hgl2
          rw [getLayout_setLayout] at hgl2
          by_cases hnm : nm2 = nm
          · rw [if_pos hnm, hgl] at hgl2
            rw [← Option.some.inj hgl2]
            obtain ⟨hp1, hp2, hp3⟩ := hpos nm L hgl
            refine ⟨?_, hp2, hp3⟩
            intro k t hkt
            simp only [List.mem_append, List.mem_singleton] at hkt
            rcases hkt with hin | hnew
            · exact hp1 k t hin
            · rw [(Prod.mk.injEq _ _ _ _).mp hnew |>.2]
              exact not_le.mp hdur
          · rw [if_neg hnm] at hgl2
            exact hpos nm2 L2 hgl2
  · intro hpos d2 hok
    by_cases hdur : dur ≤ 0
    · simp [set_two_qubit_gate_time, hdur] at hok
    · cases hgl : getLayout d nm with
      | none => simp [set_two_qubit_gate_time, hdur, hgl] at hok
      | some L =>
        cases hlk : twoQubitEntry L g a b with
        | some t =>
          by_cases ht : t = dur
          · simp only [set_two_qubit_gate_time, if_neg hdur, hgl, hlk,
              if_pos ht] at hok
            rw [← Except.ok.inj hok]
            exact hpos
          · simp [set_two_qubit_gate_time, hdur, hgl, hlk, ht] at hok
        | none =>
          simp only [set_two_qubit_gate_time, if_neg hdur, hgl, hlk] at hok
          rw [← Except.ok.inj hok]
          intro nm2 L2 hgl2
          rw [getLayout_setLayout] at hgl2
          by_cases hnm : nm2 = nm
          · rw [if_pos hnm, hgl] at hgl2
            rw [← Option.some.inj hgl2]
            obtain ⟨hp1, hp2, hp3⟩ := hpos nm L hgl
            refine ⟨hp1, ?_, hp3⟩
            intro k t hkt
            simp only [List.mem_append, List.mem_cons, List.not_mem_nil,
              or_false] at hkt
            rcases hkt with hin | hnew | hnew
            · exact hp2 k t hin
            · rw [(Prod.mk.injEq _ _ _ _).mp hnew |>.2]
              exact not_le.mp hdur
            · rw [(Prod.mk.injEq _ _ _ _).mp hnew |>.2]
              exact not_le.mp hdur
          · rw [if_neg hnm] at hgl2
            exact hpos nm2 L2 hgl2

/-- Witness for C7 on a device with one existing single-qubit entry
(duration 1) and one symmetric two-qubit entry (duration 2): duration 0
is rejected with `InvalidDuration` by both setters, duration 3 against
an unregistered layout is rejected with `UnknownLayout`, redefining the
existing entries with duration 3 is rejected with `ConflictingEntry`,
and two successful sets on fresh keys preserve the strict positivity of
all stored durations. -/
theorem gate_time_setter_guards_witness :
    set_single_qubit_gate_time entryDevice "RotateX" 0 (0 : ℤ)
      "square_lattice" = .error .InvalidDuration ∧
    set_two_qubit_gate_time entryDevice "RotateX" 0 1 (0 : ℤ)
      "square_lattice" = .error .InvalidDuration ∧
    set_single_qubit_gate_time entryDevice "RotateX" 0 (3 : ℤ)
      "missing_layout" = .error .UnknownLayout ∧
    set_two_qubit_gate_time entryDevice "RotateX" 0 1 (3 : ℤ)
      "missing_layout" = .error .UnknownLayout ∧
    set_single_qubit_gate_time entryDevice "RotateX" 0 (3 : ℤ)
      "square_lattice" = .error .ConflictingEntry ∧
    set_two_qubit_gate_time entryDevice "RotateX" 0 1 (3 : ℤ)
      "square_lattice" = .error .ConflictingEntry ∧
    DurationsPos entryDevice2 ∧
    DurationsPos entryDevice3 :=
  ⟨((gate_time_setter_guards entryDevice "RotateX" 0 0 1 0
      "square_lattice").1 (by decide)).1,
   ((gate_time_setter_guards entryDevice "RotateX" 0 0 1 0
      "square_lattice").1 (by decide)).2,
   ((gate_time_setter_guards entryDevice "RotateX" 0 0 1 3
      "missing_layout").2.1 (by decide) rfl).1,
   ((gate_time_setter_guards entryDevice "RotateX" 0 0 1 3
      "missing_layout").2.1 (by decide) rfl).2,
   (gate_time_setter_guards entryDevice "RotateX" 0 0 1 3
      "square_lattice").2.2.1 entryLayout 1 (by decide) rfl rfl (by decide),
   (gate_time_setter_guards entryDevice "RotateX" 0 0 1 3
      "square_lattice").2.2.2.1 entryLayout 2 (by decide) rfl rfl (by decide),
   (gate_time_setter_guards entryDevice "RotateX" 1 0 1 3
      "square_lattice").2.2.2.2.1 (durationsPosCheck_correct rfl)
      entryDevice2 rfl,
   (gate_time_setter_guards entryDevice "RotateX" 1 0 2 3
      "square_lattice").2.2.2.2.2 (durationsPosCheck_correct rfl)
      entryDevice3 rfl⟩

/-- C8: the Execution Driver processes the sequence in order in a
single pass; when every operation of a prefix succeeds and the next
operation is rejected with error `e`, the whole run fails with the
rejected operation's position and `e`, carrying no partial results, and
the outcome does not depend on the operations after the rejected one
(the suffix is universally quantified and absent from the result). -/
theorem run_aborts_at_first_reject {α : Type} [LinearOrderedCommRing α]
    (pre : List Operation) :
    ∀ (d dk : Device α) (tr : List Operation) (op : Operation) (e : DevError)
      (suffix : List Operation),
    run d pre = .ok dk tr → runStep dk op = .error e →
    run d (pre ++ op :: suffix) = .fail pre.length e dk := by
  induction pre with
  | nil =>
    intro d dk tr op e suffix hrun hstep
    injection hrun with h1 h2
    subst h1
    simp [run, hstep]
  | cons p ps ih =>
    intro d dk tr op e suffix hrun hstep
    cases hs : runStep d p with
    | error e2 =>
      simp only [run, hs] at hrun
      cases hrun
    | ok pr =>
      obtain ⟨d2, fwd⟩ := pr
      simp only [run, hs] at hrun
      cases hr2 : run d2 ps with
      | ok dfin tr2 =>
        rw [hr2] at hrun
        injection hrun with h1 h2
        subst h1
        have hrec := ih d2 dfin tr2 op e suffix hr2 hstep
        simp [run, hs, hrec]
      | fail k2 e2 dv2 =>
        rw [hr2] at hrun
        cases hrun

/-- Witness for C8: a definition operation succeeds, the diagonal
two-qubit gate at position 1 is rejected with `UnsupportedOperation`,
and the run fails there regardless of the suffix. -/
theorem run_aborts_at_first_reject_witness :
    run unitDevice ([.definitionOp "ro"] ++
        .twoQubit "PhaseShiftedControlledPhase" 0 3 ::
          [.singleQubit "RotateX" 0]) =
      .fail 1 .UnsupportedOperation unitDevice :=
  run_aborts_at_first_reject [.definitionOp "ro"] unitDevice unitDevice
    [.definitionOp "ro"] (.twoQubit "PhaseShiftedControlledPhase" 0 3)
    .UnsupportedOperation [.singleQubit "RotateX" 0] rfl rfl
